import Mathlib

/-!
# epollServer.c — a shallow embedding of the epoll server

The server of `src/src/epollServer.c` is embedded as pure functions that
produce the sequence of calls the C code makes on the outside world together
with either a returned value or the exit status of the process.

The functions declared in `network.h` (`tcpSocket`, `setReuse`, `bindAddress`,
`makeSocketNonBlocking`, `setListen`, `acceptConnection`, `readLine`,
`sendData`), the system calls (`epoll_create1`, `epoll_ctl`, `epoll_wait`,
`close`) and the constant `NETWORK_BUFFER_SIZE` are not part of the source
file.  The constant is a parameter of the embedding, and every value such a
primitive hands back to the C code is an input of the embedding (the
structures `SetupIO`, `AcceptIO`, `ClientIO`), so the theorems hold for every
behaviour of the primitives.

Machine integers: `int` is 32 bits, `long` and `unsigned long long` are 64
bits (LP64, the Linux targets that provide epoll).
-/

namespace EpollServer

set_option linter.unusedVariables false

/-! ## C library and machine arithmetic -/

def INT_MAX : Int := 2 ^ 31 - 1

def LONG_MAX : Int := 2 ^ 63 - 1

def LONG_MIN : Int := -(2 ^ 63)

def EXIT_FAILURE : Int := 1

def EPOLLIN : Nat := 1

def EPOLLET : Nat := 2 ^ 31

def EPOLL_CTL_ADD : Int := 1

def MAX_EVENTS : Int := 10000

/-- The white-space characters of the C locale (`isspace`). -/
def isspace (c : Char) : Bool :=
  c = ' ' || c = '\t' || c = '\n' || c = Char.ofNat 11 || c = Char.ofNat 12 || c = '\r'

/-- Decimal digits (`isdigit`). -/
def isdigit (c : Char) : Bool :=
  decide ('0'.toNat ≤ c.toNat) && decide (c.toNat ≤ '9'.toNat)

/-- Value of the longest prefix of decimal digits, continuing from `acc`. -/
def digits : List Char → Nat → Nat
  | [], acc => acc
  | c :: cs, acc => if isdigit c then digits cs (acc * 10 + (c.toNat - '0'.toNat)) else acc

/-- The C library's `atol` on a C string (the characters before the NUL):
leading white space is skipped, an optional sign is read, then the longest run
of decimal digits; anything after it is ignored and a string without digits
gives 0.  A value outside the range of `long` is clamped to `LONG_MAX` or
`LONG_MIN`, as glibc does (`atol` is `strtol (s, NULL, 10)` there). -/
def atol (s : List Char) : Int :=
  match s.dropWhile isspace with
  | '-' :: r => max LONG_MIN (-(digits r 0 : Int))
  | '+' :: r => min LONG_MAX (digits r 0 : Int)
  | r => min LONG_MAX (digits r 0 : Int)

/-- Conversion of a `long` to `int`: the value modulo `2 ^ 32`, taken in the
range of `int` (what the assignment `bytesToWrite = atol(line)` does). -/
def toInt (x : Int) : Int := (x + 2 ^ 31) % 2 ^ 32 - 2 ^ 31

/-- The decimal digits of a positive number, most significant first, as the
characters a client writes on the wire. -/
def decimal (n : Nat) : List Char :=
  (Nat.digits 10 n).reverse.map (fun d => Char.ofNat (48 + d))

/-! ## Calls on the outside world, and runs -/

/-- The calls the server makes, with their arguments and (for the ones whose
value the code inspects) the value handed back. -/
inductive Call where
  | tcpSocket (result : Int)
  | setReuse (socket result : Int)
  | bindAddress (port socket result : Int)
  | makeSocketNonBlocking (socket result : Int)
  | setListen (socket result : Int)
  | epoll_create1 (flags result : Int)
  | epoll_ctl (epoll op fd : Int) (events : Nat) (result : Int)
  | epoll_wait (epoll maxevents timeout result : Int)
  | acceptConnection (listenSocket result : Int)
  | readLine (socket : Int) (size : Nat) (result : Int)
  | sendData (socket : Int) (buffer : List Char) (length result : Int)
  | close (fd : Int)
  | displayClientData (clients : Nat)
  | perror (message : String)
  | exit (status : Int)
  deriving DecidableEq, Repr

/-- How a piece of the program ends: it hands back a value, or the process
has been terminated with an exit status. -/
inductive Res (α : Type) where
  | ok (value : α)
  | exited (status : Int)
  deriving DecidableEq, Repr

/-- The calls made, in order, and how the run ended. -/
structure Run (α : Type) where
  trace : List Call
  res : Res α
  deriving DecidableEq, Repr

/-- Sequencing: nothing runs after the process has exited. -/
def Run.bind {α β : Type} (m : Run α) (f : α → Run β) : Run β :=
  match m.res with
  | .ok a => ⟨m.trace ++ (f a).trace, (f a).res⟩
  | .exited s => ⟨m.trace, .exited s⟩

instance : Monad Run where
  pure a := ⟨[], .ok a⟩
  bind := Run.bind

/-- One call on the outside world. -/
def call (c : Call) : Run Unit := ⟨[c], .ok ()⟩

/-- `systemFatal`: reports the message with `perror` and ends the process
with `exit(EXIT_FAILURE)`. -/
def systemFatal {α : Type} (message : String) : Run α :=
  ⟨[.perror message, .exit EXIT_FAILURE], .exited EXIT_FAILURE⟩

/-! ## processConnection -/

/-- What the primitives answer while one client is served. -/
structure ClientIO where
  /-- value returned by `readLine` -/
  readLine : Int
  /-- the C string `readLine` left in `line` -/
  line : List Char
  /-- value returned by `sendData`, should it be called -/
  sendData : Int
  deriving DecidableEq, Repr

/-- `processConnection(socket, comm)`. -/
def processConnection (NETWORK_BUFFER_SIZE : Nat) (socket comm : Int) (io : ClientIO) :
    Run Int := do
  let result : List Char := List.replicate NETWORK_BUFFER_SIZE 'L'
  call (.readLine socket NETWORK_BUFFER_SIZE io.readLine)
  if io.readLine ≤ 0 then
    pure 0
  else do
    let bytesToWrite : Int := toInt (atol io.line)
    if bytesToWrite ≤ 0 ∨ bytesToWrite > (NETWORK_BUFFER_SIZE : Int) then
      systemFatal "Client requested too large a file"
    call (.sendData socket result bytesToWrite io.sendData)
    if io.sendData = -1 then
      systemFatal "Send fail"
    pure 1

/-- The bytes a `sendData (socket, buffer, length)` call is asked to write:
the first `length` bytes of the buffer. -/
def requested (buffer : List Char) (length : Int) : List Char :=
  buffer.take length.toNat

/-! ## server -/

/-- What the set-up primitives answer, in the order they are called. -/
structure SetupIO where
  tcpSocket : Int
  setReuse : Int
  bindAddress : Int
  makeSocketNonBlocking : Int
  setListen : Int
  epoll_create1 : Int
  epoll_ctl : Int
  deriving DecidableEq, Repr

/-- `initializeServer(&listenSocket, &port)`; hands back `listenSocket`. -/
def initializeServer (port : Int) (io : SetupIO) : Run Int := do
  call (.tcpSocket io.tcpSocket)
  if io.tcpSocket = -1 then
    systemFatal "Cannot Create Socket!"
  let listenSocket := io.tcpSocket
  call (.setReuse listenSocket io.setReuse)
  if io.setReuse = -1 then
    systemFatal "Cannot Set Socket To Reuse"
  call (.bindAddress port listenSocket io.bindAddress)
  if io.bindAddress = -1 then
    systemFatal "Cannot Bind Address To Socket"
  call (.makeSocketNonBlocking listenSocket io.makeSocketNonBlocking)
  if io.makeSocketNonBlocking = -1 then
    systemFatal "Cannot Make Socket Non-Blocking"
  call (.setListen listenSocket io.setListen)
  if io.setListen = -1 then
    systemFatal "Cannot Listen On Socket"
  pure listenSocket

/-- The local variables of `server` that live across the loop. -/
structure ServerState where
  listenSocket : Int
  epoll : Int
  /-- `unsigned long long connections` -/
  connections : Nat
  deriving DecidableEq, Repr

/-- The part of `server` before `while (1)`: the listening socket, the epoll
object, the registration of the listening socket and the first report. -/
def serverSetup (port : Int) (io : SetupIO) : Run ServerState := do
  let listenSocket ← initializeServer port io
  call (.epoll_create1 0 io.epoll_create1)
  if io.epoll_create1 = -1 then
    systemFatal "Unable to create epoll object"
  let epoll := io.epoll_create1
  call (.epoll_ctl epoll EPOLL_CTL_ADD listenSocket EPOLLIN io.epoll_ctl)
  if io.epoll_ctl = -1 then
    systemFatal "Unable to add listen socket to epoll"
  let connections : Nat := 0
  call (.displayClientData connections)
  pure { listenSocket := listenSocket, epoll := epoll, connections := connections }

/-- What the primitives answer in one turn of the accept loop. -/
structure AcceptIO where
  acceptConnection : Int
  makeSocketNonBlocking : Int
  epoll_ctl : Int
  deriving DecidableEq, Repr

/-- The loop `while ((client = acceptConnection(&listenSocket)) != -1)`.  The
list holds the answers of the primitives turn by turn; once it is used up
`acceptConnection` finds nothing pending and returns -1. -/
def acceptLoop (st : ServerState) : List AcceptIO → Run ServerState
  | [] => do
    call (.acceptConnection st.listenSocket (-1))
    pure st
  | a :: rest => do
    call (.acceptConnection st.listenSocket a.acceptConnection)
    if a.acceptConnection = -1 then
      pure st
    else do
      let client := a.acceptConnection
      call (.makeSocketNonBlocking client a.makeSocketNonBlocking)
      if a.makeSocketNonBlocking = -1 then
        systemFatal "Cannot make client socket non-blocking"
      call (.epoll_ctl st.epoll EPOLL_CTL_ADD client (EPOLLIN ||| EPOLLET) a.epoll_ctl)
      if a.epoll_ctl = -1 then
        systemFatal "Cannot add client socket to epoll"
      let st := { st with connections := (st.connections + 1) % 2 ^ 64 }
      call (.displayClientData st.connections)
      acceptLoop st rest

/-- One entry of `events[]` together with what the primitives answer while it
is dispatched: `accepts` is used when the entry is the listening socket,
`client` when it is a client. -/
structure Ready where
  fd : Int
  accepts : List AcceptIO
  client : ClientIO
  deriving DecidableEq, Repr

/-- The body of `for (index = 0; index < ready; index++)` for one entry. -/
def dispatch (NETWORK_BUFFER_SIZE : Nat) (comm : Int) (st : ServerState) (ev : Ready) :
    Run ServerState :=
  if ev.fd = st.listenSocket then
    acceptLoop st ev.accepts
  else do
    let r ← processConnection NETWORK_BUFFER_SIZE ev.fd comm ev.client
    if r = 0 then do
      call (.close ev.fd)
      let st := { st with connections := (st.connections + 2 ^ 64 - 1) % 2 ^ 64 }
      call (.displayClientData st.connections)
      pure st
    else
      pure st

/-- The `for` loop over the entries `epoll_wait` handed back. -/
def forEvents (NETWORK_BUFFER_SIZE : Nat) (comm : Int) (st : ServerState) :
    List Ready → Run ServerState
  | [] => pure st
  | ev :: evs => do
    let st ← dispatch NETWORK_BUFFER_SIZE comm st ev
    forEvents NETWORK_BUFFER_SIZE comm st evs

/-- `while (1)` run over the answers of finitely many `epoll_wait` calls:
`none` is the answer -1, `some batch` the entries handed back. -/
def serverLoop (NETWORK_BUFFER_SIZE : Nat) (comm : Int) (st : ServerState) :
    List (Option (List Ready)) → Run ServerState
  | [] => pure st
  | none :: _ => do
    call (.epoll_wait st.epoll MAX_EVENTS (-1) (-1))
    systemFatal "Epoll wait error"
  | some batch :: more => do
    call (.epoll_wait st.epoll MAX_EVENTS (-1) batch.length)
    let st ← forEvents NETWORK_BUFFER_SIZE comm st batch
    serverLoop NETWORK_BUFFER_SIZE comm st more

/-- `server(port, comm)` up to the end of the given `epoll_wait` answers. -/
def server (NETWORK_BUFFER_SIZE : Nat) (port comm : Int) (io : SetupIO)
    (waits : List (Option (List Ready))) : Run ServerState := do
  let st ← serverSetup port io
  serverLoop NETWORK_BUFFER_SIZE comm st waits

/-! ## What the set-up is expected to do -/

/-- The answers of the seven set-up primitives, in the order of the calls. -/
def setupResults (io : SetupIO) : List Int :=
  [io.tcpSocket, io.setReuse, io.bindAddress, io.makeSocketNonBlocking, io.setListen,
    io.epoll_create1, io.epoll_ctl]

/-- The seven set-up calls in the order socket creation, address reuse, bind,
non-blocking mode, listen, epoll creation, registration of the listening
socket for `EPOLLIN`. -/
def setupCalls (port : Int) (io : SetupIO) : List Call :=
  [.tcpSocket io.tcpSocket,
    .setReuse io.tcpSocket io.setReuse,
    .bindAddress port io.tcpSocket io.bindAddress,
    .makeSocketNonBlocking io.tcpSocket io.makeSocketNonBlocking,
    .setListen io.tcpSocket io.setListen,
    .epoll_create1 0 io.epoll_create1,
    .epoll_ctl io.epoll_create1 EPOLL_CTL_ADD io.tcpSocket EPOLLIN io.epoll_ctl]

/-- The message `systemFatal` is given when the set-up call of that rank fails. -/
def setupMessages : List String :=
  ["Cannot Create Socket!", "Cannot Set Socket To Reuse", "Cannot Bind Address To Socket",
    "Cannot Make Socket Non-Blocking", "Cannot Listen On Socket",
    "Unable to create epoll object", "Unable to add listen socket to epoll"]

/-- How many set-up primitives succeeded before the first one that handed
back -1 (7 when none did). -/
def setupSucceeded (io : SetupIO) : Nat :=
  ((setupResults io).takeWhile (fun r => decide (r ≠ -1))).length

/-! ## The open client descriptors and the reachable states of the loop -/

/-- The effect of one call on the list of client descriptors that are open:
a descriptor handed back by `acceptConnection` is added, a closed one is
removed. -/
def track (clients : List Int) : Call → List Int
  | .acceptConnection _ result => if result = -1 then clients else clients ++ [result]
  | .close fd => clients.erase fd
  | _ => clients

/-- The client descriptors that have been accepted and not yet closed,
read off the calls made so far. -/
def openClients (trace : List Call) : List Int :=
  trace.foldl track []

/-- The descriptors the accept loop is handed before `acceptConnection`
first answers -1. -/
def accepted (l : List AcceptIO) : List Int :=
  (l.map (fun a => a.acceptConnection)).takeWhile (fun fd => decide (fd ≠ -1))

/-- What the operating system guarantees about an entry `epoll_wait` hands
back when `clients` are the open client descriptors: an entry that is not
the listening socket names an open (hence registered) client, and the
descriptors `acceptConnection` hands out are non-negative `int`s, distinct,
and different from every descriptor that is open. -/
def Admissible (st : ServerState) (clients : List Int) (ev : Ready) : Prop :=
  if ev.fd = st.listenSocket then
    (accepted ev.accepts).Nodup ∧
      ∀ fd ∈ accepted ev.accepts, 0 ≤ fd ∧ fd ≤ INT_MAX ∧ fd ∉ clients ∧ fd ≠ st.listenSocket
  else
    ev.fd ∈ clients

instance (st : ServerState) (clients : List Int) (ev : Ready) :
    Decidable (Admissible st clients ev) := by
  unfold Admissible
  infer_instance

/-- The states of the loop of `server` between two dispatches, with the
calls made so far: the state `serverSetup` leaves; a state after one more
`epoll_wait` that did not fail; and the state in which the dispatch of an
admissible entry leaves a reachable state, when it does not end the
process. -/
inductive Reachable (N : Nat) (port comm : Int) (io : SetupIO) :
    ServerState → List Call → Prop where
  | init {st : ServerState} {tr : List Call} :
      serverSetup port io = ⟨tr, .ok st⟩ → Reachable N port comm io st tr
  | wait {st : ServerState} {tr : List Call} (ready : Int) :
      ready ≠ -1 → Reachable N port comm io st tr →
      Reachable N port comm io st (tr ++ [.epoll_wait st.epoll MAX_EVENTS (-1) ready])
  | step {st st' : ServerState} {tr t : List Call} {ev : Ready} :
      Reachable N port comm io st tr → Admissible st (openClients tr) ev →
      dispatch N comm st ev = ⟨t, .ok st'⟩ → Reachable N port comm io st' (tr ++ t)

/-- Every entry of a batch is admissible at the time it is dispatched:
`clients` are the client descriptors open before the batch. -/
def AdmissibleBatch (N : Nat) (comm : Int) : ServerState → List Int → List Ready → Prop
  | _, _, [] => True
  | st, clients, ev :: evs =>
    Admissible st clients ev ∧
      ∀ t st', dispatch N comm st ev = ⟨t, .ok st'⟩ →
        AdmissibleBatch N comm st' (t.foldl track clients) evs

/-- Every batch of a sequence of `epoll_wait` answers is admissible at the
time it is handed back. -/
def AdmissibleWaits (N : Nat) (comm : Int) :
    ServerState → List Int → List (Option (List Ready)) → Prop
  | _, _, [] => True
  | _, _, none :: _ => True
  | st, clients, some batch :: more =>
    AdmissibleBatch N comm st clients batch ∧
      ∀ t st', forEvents N comm st batch = ⟨t, .ok st'⟩ →
        AdmissibleWaits N comm st' (t.foldl track clients) more

/-! ## A line reader -/

/-- The bytes of `available` up to and including the first newline, at most
`n` of them. -/
def lineOf : List Char → Nat → List Char
  | [], _ => []
  | _ :: _, 0 => []
  | c :: cs, n + 1 => if c = '\n' then [c] else c :: lineOf cs n

/-- Modelled from the spec: `readLine`, declared in `network.h` and defined
outside the source file.  The spec describes it as "read a newline-terminated
line" and "reads one newline-terminated line from `fd` up to a fixed maximum
buffer size"; "zero or fewer bytes" read is an orderly close or an error.
Given the bytes available on the socket it takes them up to and including the
first newline, keeping room for the NUL, and hands back the count, the line
and the bytes it left unread. -/
def readLine (available : List Char) (size : Nat) : Int × List Char × List Char :=
  let line := lineOf available (size - 1)
  ((line.length : Int), line, available.drop line.length)

/-! ## Facts about processConnection -/

/-- A `long` in the range of `int` is converted to itself. -/
theorem toInt_of_range (x : Int) (h0 : -(2 ^ 31) ≤ x) (h1 : x ≤ INT_MAX) : toInt x = x := by
  unfold toInt
  unfold INT_MAX at h1
  omega

/-- `readLine` handed back zero or less: the handler returns 0 at once. -/
theorem processConnection_read_failed (N : Nat) (socket comm : Int) (io : ClientIO)
    (h : io.readLine ≤ 0) :
    processConnection N socket comm io = ⟨[.readLine socket N io.readLine], .ok 0⟩ := by
  simp [processConnection, bind, Run.bind, call, pure, h]

/-- The converted count is out of range: `systemFatal`. -/
theorem processConnection_rejected (N : Nat) (socket comm : Int) (io : ClientIO)
    (h : 0 < io.readLine)
    (hb : toInt (atol io.line) ≤ 0 ∨ toInt (atol io.line) > (N : Int)) :
    processConnection N socket comm io =
      ⟨[.readLine socket N io.readLine, .perror "Client requested too large a file",
        .exit EXIT_FAILURE], .exited EXIT_FAILURE⟩ := by
  have h' : ¬ io.readLine ≤ 0 := by omega
  simp [processConnection, bind, Run.bind, call, pure, h', systemFatal, hb]

/-- The converted count is in range and `sendData` did not hand back -1. -/
theorem processConnection_sent (N : Nat) (socket comm : Int) (io : ClientIO)
    (h : 0 < io.readLine)
    (h1 : 0 < toInt (atol io.line)) (h2 : toInt (atol io.line) ≤ (N : Int))
    (hs : io.sendData ≠ -1) :
    processConnection N socket comm io =
      ⟨[.readLine socket N io.readLine,
        .sendData socket (List.replicate N 'L') (toInt (atol io.line)) io.sendData],
        .ok 1⟩ := by
  have h' : ¬ io.readLine ≤ 0 := by omega
  have hb : ¬ (toInt (atol io.line) ≤ 0 ∨ toInt (atol io.line) > (N : Int)) := by omega
  simp [processConnection, bind, Run.bind, call, pure, h', systemFatal, hb, hs]

/-- The converted count is in range and `sendData` handed back -1. -/
theorem processConnection_send_failed (N : Nat) (socket comm : Int) (io : ClientIO)
    (h : 0 < io.readLine)
    (h1 : 0 < toInt (atol io.line)) (h2 : toInt (atol io.line) ≤ (N : Int))
    (hs : io.sendData = -1) :
    processConnection N socket comm io =
      ⟨[.readLine socket N io.readLine,
        .sendData socket (List.replicate N 'L') (toInt (atol io.line)) (-1),
        .perror "Send fail", .exit EXIT_FAILURE], .exited EXIT_FAILURE⟩ := by
  have h' : ¬ io.readLine ≤ 0 := by omega
  have hb : ¬ (toInt (atol io.line) ≤ 0 ∨ toInt (atol io.line) > (N : Int)) := by omega
  simp [processConnection, bind, Run.bind, call, pure, h', systemFatal, hb, hs]

/-- The four ways a call of `processConnection` can go. -/
theorem processConnection_cases (N : Nat) (socket comm : Int) (io : ClientIO) :
    (io.readLine ≤ 0 ∧
      processConnection N socket comm io = ⟨[.readLine socket N io.readLine], .ok 0⟩) ∨
    (0 < io.readLine ∧ (toInt (atol io.line) ≤ 0 ∨ toInt (atol io.line) > (N : Int)) ∧
      processConnection N socket comm io =
        ⟨[.readLine socket N io.readLine, .perror "Client requested too large a file",
          .exit EXIT_FAILURE], .exited EXIT_FAILURE⟩) ∨
    (0 < io.readLine ∧ 0 < toInt (atol io.line) ∧ toInt (atol io.line) ≤ (N : Int) ∧
      io.sendData ≠ -1 ∧
      processConnection N socket comm io =
        ⟨[.readLine socket N io.readLine,
          .sendData socket (List.replicate N 'L') (toInt (atol io.line)) io.sendData],
          .ok 1⟩) ∨
    (0 < io.readLine ∧ 0 < toInt (atol io.line) ∧ toInt (atol io.line) ≤ (N : Int) ∧
      io.sendData = -1 ∧
      processConnection N socket comm io =
        ⟨[.readLine socket N io.readLine,
          .sendData socket (List.replicate N 'L') (toInt (atol io.line)) (-1),
          .perror "Send fail", .exit EXIT_FAILURE], .exited EXIT_FAILURE⟩) := by
  by_cases h : io.readLine ≤ 0
  · exact Or.inl ⟨h, processConnection_read_failed N socket comm io h⟩
  · have h' : 0 < io.readLine := by omega
    by_cases hb : toInt (atol io.line) ≤ 0 ∨ toInt (atol io.line) > (N : Int)
    · exact Or.inr (Or.inl ⟨h', hb, processConnection_rejected N socket comm io h' hb⟩)
    · have h1 : 0 < toInt (atol io.line) := by omega
      have h2 : toInt (atol io.line) ≤ (N : Int) := by omega
      by_cases hs : io.sendData = -1
      · exact Or.inr (Or.inr (Or.inr
          ⟨h', h1, h2, hs, processConnection_send_failed N socket comm io h' h1 h2 hs⟩))
      · exact Or.inr (Or.inr (Or.inl
          ⟨h', h1, h2, hs, processConnection_sent N socket comm io h' h1 h2 hs⟩))

/-- A prefix of the filler buffer is filler. -/
theorem requested_replicate (N : Nat) (n : Int) (h : n ≤ (N : Int)) :
    requested (List.replicate N 'L') n = List.replicate n.toNat 'L' := by
  unfold requested
  rw [List.take_replicate]
  congr 1
  omega

/-- C1: for every client descriptor and every request line whose value `n`
(as `atol` reads it) satisfies `1 ≤ n ≤ NETWORK_BUFFER_SIZE`, when `readLine`
hands back a positive count and `sendData` does not hand back -1,
`processConnection` makes exactly two calls, `readLine` and one `sendData`
whose length is `n`; the bytes it asks to write are `n` copies of 'L'; it
returns 1 and the process is not terminated. -/
theorem processConnection_valid_request (N : Nat) (socket comm : Int) (io : ClientIO) (n : Int)
    (hN : (N : Int) ≤ INT_MAX) (hline : atol io.line = n) (h1 : 1 ≤ n) (h2 : n ≤ (N : Int))
    (hread : 0 < io.readLine) (hsend : io.sendData ≠ -1) :
    processConnection N socket comm io =
      ⟨[.readLine socket N io.readLine,
        .sendData socket (List.replicate N 'L') n io.sendData], .ok 1⟩ ∧
    requested (List.replicate N 'L') n = List.replicate n.toNat 'L' ∧
    (List.replicate n.toNat 'L').length = n := by
  have hn : toInt (atol io.line) = n := by
    rw [hline]
    exact toInt_of_range n (by omega) (by omega)
  refine ⟨?_, requested_replicate N n h2, ?_⟩
  · have := processConnection_sent N socket comm io hread (by omega) (by omega) hsend
    rw [hn] at this
    exact this
  · simp
    omega

/-- C1 at the request "4" with an 8-byte buffer. -/
theorem processConnection_valid_request_witness :
    processConnection 8 7 0 ⟨2, "4\n".toList, 4⟩ =
      ⟨[.readLine 7 8 2, .sendData 7 (List.replicate 8 'L') 4 4], .ok 1⟩ ∧
    requested (List.replicate 8 'L') 4 = List.replicate (4 : Int).toNat 'L' ∧
    (List.replicate (4 : Int).toNat 'L').length = (4 : Int) :=
  processConnection_valid_request 8 7 0 ⟨2, "4\n".toList, 4⟩ 4 (by decide) (by decide)
    (by decide) (by decide) (by decide) (by decide)

/-- C10: whatever the request line holds and whatever the primitives answer,
every `sendData` call `processConnection` makes has `1 ≤ length ≤
NETWORK_BUFFER_SIZE`, its buffer is the `NETWORK_BUFFER_SIZE` bytes that
`memset` set to 'L', and the bytes asked for are a prefix of that buffer (all
'L'), so the write stays inside the buffer. -/
theorem processConnection_sendData_within_buffer (N : Nat) (socket comm : Int) (io : ClientIO)
    (s : Int) (buffer : List Char) (length r : Int)
    (h : Call.sendData s buffer length r ∈ (processConnection N socket comm io).trace) :
    1 ≤ length ∧ length ≤ (N : Int) ∧ buffer = List.replicate N 'L' ∧
    buffer.length = N ∧ length.toNat ≤ buffer.length ∧
    requested buffer length = List.replicate length.toNat 'L' := by
  rcases processConnection_cases N socket comm io with
    ⟨_, e⟩ | ⟨_, _, e⟩ | ⟨_, h1, h2, _, e⟩ | ⟨_, h1, h2, _, e⟩ <;>
  · rw [e] at h
    simp at h
    try
      obtain ⟨_, hb, hl, _⟩ := h
      subst hb hl
      refine ⟨by omega, h2, rfl, by simp, by simp; omega, requested_replicate N _ h2⟩

/-- C10 at the request "4" with an 8-byte buffer. -/
theorem processConnection_sendData_within_buffer_witness :
    1 ≤ (4 : Int) ∧ (4 : Int) ≤ ((8 : Nat) : Int) ∧
    List.replicate 8 'L' = List.replicate 8 'L' ∧
    (List.replicate 8 'L').length = 8 ∧ (4 : Int).toNat ≤ (List.replicate 8 'L').length ∧
    requested (List.replicate 8 'L') 4 = List.replicate (4 : Int).toNat 'L' :=
  processConnection_sendData_within_buffer 8 7 0 ⟨2, "4\n".toList, 4⟩ 7
    (List.replicate 8 'L') 4 4 (by decide)

/-- C3, the code at a failing input: the request line "4294967297" has the
value `2 ^ 32 + 1`, which is larger than every buffer size an `int` can hold,
yet for every buffer size `N + 1` the handler does not call `systemFatal`: the
conversion to `int` leaves 1, one byte is sent and 1 is returned. -/
theorem processConnection_wide_request_served (N : Nat) (socket comm : Int) :
    atol "4294967297\n".toList = 2 ^ 32 + 1 ∧
    processConnection (N + 1) socket comm ⟨11, "4294967297\n".toList, 1⟩ =
      ⟨[.readLine socket (N + 1) 11, .sendData socket (List.replicate (N + 1) 'L') 1 1],
        .ok 1⟩ := by
  have ha : atol "4294967297\n".toList = 2 ^ 32 + 1 := by decide
  refine ⟨ha, ?_⟩
  have ht : toInt (atol "4294967297\n".toList) = 1 := by rw [ha]; decide
  have := processConnection_sent (N + 1) socket comm ⟨11, "4294967297\n".toList, 1⟩
    (by decide) (by rw [ht]; decide) (by rw [ht]; push_cast; omega) (by decide)
  rw [ht] at this
  exact this

/-! ## Requests written in decimal, requests out of range, reading once -/

/-- A string that starts with a digit has no white space or sign to skip. -/
theorem atol_of_digit_head (d : Nat) (hd : d < 10) (l : List Char) :
    atol (Char.ofNat (48 + d) :: l) = min LONG_MAX (digits (Char.ofNat (48 + d) :: l) 0 : Int) := by
  interval_cases d <;> rfl

/-- One digit is accumulated. -/
theorem digits_of_digit (d : Nat) (hd : d < 10) (l : List Char) (acc : Nat) :
    digits (Char.ofNat (48 + d) :: l) acc = digits l (acc * 10 + d) := by
  interval_cases d <;> rfl

/-- Digits followed by a newline are accumulated most significant first. -/
theorem digits_map_append (ds : List Nat) (rest : List Char) :
    ∀ acc : Nat, (∀ d ∈ ds, d < 10) →
    digits (ds.map (fun d => Char.ofNat (48 + d)) ++ '\n' :: rest) acc =
      ds.foldl (fun a d => a * 10 + d) acc := by
  induction ds with
  | nil =>
    intro acc _
    rfl
  | cons d ds ih =>
    intro acc h
    simp only [List.map_cons, List.cons_append, List.foldl_cons]
    rw [digits_of_digit d (h d (by simp))]
    exact ih _ (fun x hx => h x (by simp [hx]))

/-- Accumulating the digits gives the number they write in base 10. -/
theorem foldr_eq_ofDigits (L : List Nat) :
    L.foldr (fun d a => a * 10 + d) 0 = Nat.ofDigits 10 L := by
  induction L with
  | nil => rfl
  | cons d L ih =>
    simp only [List.foldr_cons, ih, Nat.ofDigits_cons]
    ring

/-- `atol` reads back a positive number written in decimal and followed by a
newline (clamped to `LONG_MAX`). -/
theorem atol_decimal (n : Nat) (hn : 0 < n) (rest : List Char) :
    atol (decimal n ++ '\n' :: rest) = min LONG_MAX (n : Int) := by
  have hlt : ∀ d ∈ (Nat.digits 10 n).reverse, d < 10 := fun d hd =>
    Nat.digits_lt_base (by decide) (List.mem_reverse.1 hd)
  have hval : digits (decimal n ++ '\n' :: rest) 0 = n := by
    unfold decimal
    rw [digits_map_append _ _ 0 hlt, List.foldl_reverse, foldr_eq_ofDigits, Nat.ofDigits_digits]
  have hne : (Nat.digits 10 n).reverse ≠ [] := by
    simpa using Nat.digits_ne_nil_iff_ne_zero.2 (by omega)
  obtain ⟨d, ds, hds⟩ := List.exists_cons_of_ne_nil hne
  have hd : d < 10 := hlt d (by rw [hds]; simp)
  have hshape : decimal n ++ '\n' :: rest =
      Char.ofNat (48 + d) :: (ds.map (fun d => Char.ofNat (48 + d)) ++ '\n' :: rest) := by
    unfold decimal
    rw [hds]
    rfl
  rw [hshape, atol_of_digit_head d hd, ← hshape, hval]


/-- A client that writes the decimal digits of `n` and a newline, with
`1 ≤ n ≤ NETWORK_BUFFER_SIZE`, is sent `n` bytes 'L' and the handler returns 1
(given that `readLine` hands back a positive count and `sendData` does not
fail). -/
theorem processConnection_decimal_request (N : Nat) (socket comm : Int) (n : Nat)
    (count result : Int) (hN : (N : Int) ≤ INT_MAX) (h1 : 1 ≤ n) (h2 : n ≤ N)
    (hread : 0 < count) (hsend : result ≠ -1) :
    processConnection N socket comm ⟨count, decimal n ++ ['\n'], result⟩ =
      ⟨[.readLine socket N count, .sendData socket (List.replicate N 'L') n result],
        .ok 1⟩ ∧
    requested (List.replicate N 'L') n = List.replicate n 'L' := by
  have hval : atol (decimal n ++ ['\n']) = (n : Int) := by
    rw [atol_decimal n (by omega) []]
    unfold INT_MAX at hN
    unfold LONG_MAX
    omega
  have hn : toInt (atol (decimal n ++ ['\n'])) = (n : Int) := by
    rw [hval]
    exact toInt_of_range _ (by omega) (by omega)
  have e := processConnection_sent N socket comm ⟨count, decimal n ++ ['\n'], result⟩ hread
    (by rw [hn]; omega) (by rw [hn]; omega) hsend
  rw [hn] at e
  refine ⟨e, ?_⟩
  have := requested_replicate N (n : Int) (by omega)
  simpa using this

/-- The request "4" with an 8-byte buffer. -/
theorem processConnection_decimal_request_witness :
    processConnection 8 7 0 ⟨2, decimal 4 ++ ['\n'], 4⟩ =
      ⟨[.readLine 7 8 2, .sendData 7 (List.replicate 8 'L') ((4 : Nat) : Int) 4], .ok 1⟩ ∧
    requested (List.replicate 8 'L') ((4 : Nat) : Int) = List.replicate 4 'L' :=
  processConnection_decimal_request 8 7 0 4 2 4 (by decide) (by decide) (by decide)
    (by decide) (by decide)

/-- A request whose value fits in an `int` and is not in
`1 .. NETWORK_BUFFER_SIZE` ends the process through `systemFatal`, and
`sendData` is not called. -/
theorem processConnection_out_of_range_exits (N : Nat) (socket comm : Int) (io : ClientIO)
    (n : Int) (hline : atol io.line = n) (hlo : -(2 ^ 31) ≤ n) (hhi : n ≤ INT_MAX)
    (hbad : n ≤ 0 ∨ n > (N : Int)) (hread : 0 < io.readLine) :
    processConnection N socket comm io =
      ⟨[.readLine socket N io.readLine, .perror "Client requested too large a file",
        .exit EXIT_FAILURE], .exited EXIT_FAILURE⟩ ∧
    EXIT_FAILURE ≠ 0 := by
  have hn : toInt (atol io.line) = n := by
    rw [hline]
    exact toInt_of_range n hlo hhi
  exact ⟨processConnection_rejected N socket comm io hread (by rw [hn]; exact hbad),
    by decide⟩

/-- The requests "0" and "9" with an 8-byte buffer. -/
theorem processConnection_out_of_range_exits_witness :
    (processConnection 8 7 0 ⟨2, "0\n".toList, 4⟩ =
      ⟨[.readLine 7 8 2, .perror "Client requested too large a file",
        .exit EXIT_FAILURE], .exited EXIT_FAILURE⟩ ∧
    EXIT_FAILURE ≠ 0) ∧
    (processConnection 8 7 0 ⟨2, "9\n".toList, 4⟩ =
      ⟨[.readLine 7 8 2, .perror "Client requested too large a file",
        .exit EXIT_FAILURE], .exited EXIT_FAILURE⟩ ∧
    EXIT_FAILURE ≠ 0) :=
  ⟨processConnection_out_of_range_exits 8 7 0 ⟨2, "0\n".toList, 4⟩ 0 (by decide) (by decide)
      (by decide) (by decide) (by decide),
    processConnection_out_of_range_exits 8 7 0 ⟨2, "9\n".toList, 4⟩ 9 (by decide) (by decide)
      (by decide) (by decide) (by decide)⟩

/-- Every call of `processConnection` calls `readLine` first and never again;
when it returns 1 that one call had handed back a positive count, so the
handler returns without `readLine` having reported the end of the input. -/
theorem processConnection_reads_once (N : Nat) (socket comm : Int) (io : ClientIO) :
    (∃ rest, (processConnection N socket comm io).trace =
        .readLine socket N io.readLine :: rest ∧
      ∀ s n r, Call.readLine s n r ∉ rest) ∧
    ((processConnection N socket comm io).res = .ok 1 → 0 < io.readLine) := by
  rcases processConnection_cases N socket comm io with
    ⟨_, e⟩ | ⟨h, _, e⟩ | ⟨h, _, _, _, e⟩ | ⟨h, _, _, _, e⟩ <;>
  · rw [e]
    simp
    try exact h

/-! ## Facts about the dispatch of a client entry -/

/-- The handler handed back 0: the descriptor is closed, the counter is
decremented and reported. -/
theorem dispatch_handler_zero (N : Nat) (comm : Int) (st : ServerState) (ev : Ready)
    (t : List Call) (hfd : ev.fd ≠ st.listenSocket)
    (h : processConnection N ev.fd comm ev.client = ⟨t, .ok 0⟩) :
    dispatch N comm st ev =
      ⟨t ++ [.close ev.fd, .displayClientData ((st.connections + 2 ^ 64 - 1) % 2 ^ 64)],
        .ok { st with connections := (st.connections + 2 ^ 64 - 1) % 2 ^ 64 }⟩ := by
  simp only [dispatch, hfd, bind, Run.bind, h, call, pure, if_true, if_false,
    List.append_assoc, List.singleton_append, List.append_nil]

/-- The handler handed back a value other than 0: nothing more is done. -/
theorem dispatch_handler_nonzero (N : Nat) (comm : Int) (st : ServerState) (ev : Ready)
    (t : List Call) (r : Int) (hfd : ev.fd ≠ st.listenSocket) (hr : r ≠ 0)
    (h : processConnection N ev.fd comm ev.client = ⟨t, .ok r⟩) :
    dispatch N comm st ev = ⟨t, .ok st⟩ := by
  simp [dispatch, hfd, bind, Run.bind, h, pure, hr]

/-- The handler ended the process: nothing more is done. -/
theorem dispatch_handler_exited (N : Nat) (comm : Int) (st : ServerState) (ev : Ready)
    (t : List Call) (s : Int) (hfd : ev.fd ≠ st.listenSocket)
    (h : processConnection N ev.fd comm ev.client = ⟨t, .exited s⟩) :
    dispatch N comm st ev = ⟨t, .exited s⟩ := by
  simp [dispatch, hfd, bind, Run.bind, h]

/-- C2 fails on the code: with the counter at 1, an entry for client 7 whose
request "4" is answered in full makes the handler return 1, and the dispatch
then makes no `close` call and leaves the counter at 1. -/
theorem dispatch_success_leaves_open :
    (processConnection 8 7 0 ⟨2, "4\n".toList, 4⟩).res = .ok 1 ∧
    dispatch 8 0 ⟨3, 4, 1⟩ ⟨7, [], ⟨2, "4\n".toList, 4⟩⟩ =
      ⟨[.readLine 7 8 2, .sendData 7 (List.replicate 8 'L') 4 4], .ok ⟨3, 4, 1⟩⟩ ∧
    Call.close 7 ∉ (dispatch 8 0 ⟨3, 4, 1⟩ ⟨7, [], ⟨2, "4\n".toList, 4⟩⟩).trace := by
  decide

/-- C2 as amended: for every entry of a client on which the handler returns 1
(a complete reply was sent), the dispatch makes the two calls of the handler
(`readLine`, `sendData`) and nothing else: no `close`, no report, and the state
of the loop, the counter included, is unchanged; the connection stays open and
registered. -/
theorem dispatch_success_keeps_connection (N : Nat) (comm : Int) (st : ServerState)
    (ev : Ready) (hfd : ev.fd ≠ st.listenSocket)
    (h : (processConnection N ev.fd comm ev.client).res = .ok 1) :
    dispatch N comm st ev =
      ⟨[.readLine ev.fd N ev.client.readLine,
        .sendData ev.fd (List.replicate N 'L') (toInt (atol ev.client.line))
          ev.client.sendData], .ok st⟩ ∧
    (∀ fd, Call.close fd ∉ (dispatch N comm st ev).trace) ∧
    (∀ n, Call.displayClientData n ∉ (dispatch N comm st ev).trace) := by
  have e : processConnection N ev.fd comm ev.client =
      ⟨[.readLine ev.fd N ev.client.readLine,
        .sendData ev.fd (List.replicate N 'L') (toInt (atol ev.client.line))
          ev.client.sendData], .ok 1⟩ := by
    rcases processConnection_cases N ev.fd comm ev.client with
      ⟨_, e⟩ | ⟨_, _, e⟩ | ⟨_, _, _, _, e⟩ | ⟨_, _, _, _, e⟩
    · rw [e] at h; simp at h
    · rw [e] at h; simp at h
    · exact e
    · rw [e] at h; simp at h
  have d := dispatch_handler_nonzero N comm st ev _ 1 hfd (by decide) e
  rw [d]
  simp

/-- C2 as amended, at client 7 with the request "4". -/
theorem dispatch_success_keeps_connection_witness :
    dispatch 8 0 ⟨3, 4, 1⟩ ⟨7, [], ⟨2, "4\n".toList, 4⟩⟩ =
      ⟨[.readLine 7 8 2,
        .sendData 7 (List.replicate 8 'L') (toInt (atol "4\n".toList)) 4], .ok ⟨3, 4, 1⟩⟩ ∧
    (∀ fd, Call.close fd ∉ (dispatch 8 0 ⟨3, 4, 1⟩ ⟨7, [], ⟨2, "4\n".toList, 4⟩⟩).trace) ∧
    (∀ n, Call.displayClientData n ∉
      (dispatch 8 0 ⟨3, 4, 1⟩ ⟨7, [], ⟨2, "4\n".toList, 4⟩⟩).trace) :=
  dispatch_success_keeps_connection 8 0 ⟨3, 4, 1⟩ ⟨7, [], ⟨2, "4\n".toList, 4⟩⟩
    (by decide) (by decide)

/-- C5 fails on the code: for the valid request "4" on client 7, when
`sendData` answers -1 the handler does not return: it calls `perror` and
`exit (1)`, and the dispatch makes no `close` call. -/
theorem dispatch_send_failure_exits :
    (processConnection 8 7 0 ⟨2, "4\n".toList, -1⟩).res = .exited 1 ∧
    dispatch 8 0 ⟨3, 4, 1⟩ ⟨7, [], ⟨2, "4\n".toList, -1⟩⟩ =
      ⟨[.readLine 7 8 2, .sendData 7 (List.replicate 8 'L') 4 (-1), .perror "Send fail",
        .exit 1], .exited 1⟩ ∧
    Call.close 7 ∉ (dispatch 8 0 ⟨3, 4, 1⟩ ⟨7, [], ⟨2, "4\n".toList, -1⟩⟩).trace := by
  decide

/-- C5 as amended: for every valid request (`1 ≤ n ≤ NETWORK_BUFFER_SIZE`),
if `sendData` answers -1 the handler ends the process through `systemFatal`
("Send fail", exit status `EXIT_FAILURE`, which is not 0); it returns nothing
to the dispatch, which makes no further call: the descriptor is not closed and
the counter is not changed or reported. -/
theorem dispatch_send_failure_is_fatal (N : Nat) (comm : Int) (st : ServerState)
    (ev : Ready) (n : Int) (hfd : ev.fd ≠ st.listenSocket) (hN : (N : Int) ≤ INT_MAX)
    (hread : 0 < ev.client.readLine) (hline : atol ev.client.line = n)
    (h1 : 1 ≤ n) (h2 : n ≤ (N : Int)) (hsend : ev.client.sendData = -1) :
    processConnection N ev.fd comm ev.client =
      ⟨[.readLine ev.fd N ev.client.readLine,
        .sendData ev.fd (List.replicate N 'L') n (-1),
        .perror "Send fail", .exit EXIT_FAILURE], .exited EXIT_FAILURE⟩ ∧
    dispatch N comm st ev =
      ⟨[.readLine ev.fd N ev.client.readLine,
        .sendData ev.fd (List.replicate N 'L') n (-1),
        .perror "Send fail", .exit EXIT_FAILURE], .exited EXIT_FAILURE⟩ ∧
    EXIT_FAILURE ≠ 0 := by
  have hn : toInt (atol ev.client.line) = n := by
    rw [hline]
    exact toInt_of_range n (by omega) (by omega)
  have e := processConnection_send_failed N ev.fd comm ev.client hread (by omega) (by omega)
    hsend
  rw [hn] at e
  exact ⟨e, dispatch_handler_exited N comm st ev _ _ hfd e, by decide⟩

/-- C5 as amended, at client 7 with the request "4". -/
theorem dispatch_send_failure_is_fatal_witness :
    processConnection 8 7 0 ⟨2, "4\n".toList, -1⟩ =
      ⟨[.readLine 7 8 2, .sendData 7 (List.replicate 8 'L') 4 (-1),
        .perror "Send fail", .exit EXIT_FAILURE], .exited EXIT_FAILURE⟩ ∧
    dispatch 8 0 ⟨3, 4, 1⟩ ⟨7, [], ⟨2, "4\n".toList, -1⟩⟩ =
      ⟨[.readLine 7 8 2, .sendData 7 (List.replicate 8 'L') 4 (-1),
        .perror "Send fail", .exit EXIT_FAILURE], .exited EXIT_FAILURE⟩ ∧
    EXIT_FAILURE ≠ 0 :=
  dispatch_send_failure_is_fatal 8 0 ⟨3, 4, 1⟩ ⟨7, [], ⟨2, "4\n".toList, -1⟩⟩ 4
    (by decide) (by decide) (by decide) (by decide) (by decide) (by decide) (by decide)

/-! ## Set-up -/

/-- No set-up primitive answers -1 exactly when all seven are counted as
succeeded. -/
theorem setupSucceeded_eq_seven_iff (io : SetupIO) :
    (∀ r ∈ setupResults io, r ≠ -1) ↔ setupSucceeded io = 7 := by
  obtain ⟨r1, r2, r3, r4, r5, r6, r7⟩ := io
  by_cases h1 : r1 = -1
  · simp [setupSucceeded, setupResults, h1, List.takeWhile]
  by_cases h2 : r2 = -1
  · simp [setupSucceeded, setupResults, h1, h2, List.takeWhile]
  by_cases h3 : r3 = -1
  · simp [setupSucceeded, setupResults, h1, h2, h3, List.takeWhile]
  by_cases h4 : r4 = -1
  · simp [setupSucceeded, setupResults, h1, h2, h3, h4, List.takeWhile]
  by_cases h5 : r5 = -1
  · simp [setupSucceeded, setupResults, h1, h2, h3, h4, h5, List.takeWhile]
  by_cases h6 : r6 = -1
  · simp [setupSucceeded, setupResults, h1, h2, h3, h4, h5, h6, List.takeWhile]
  by_cases h7 : r7 = -1
  · simp [setupSucceeded, setupResults, h1, h2, h3, h4, h5, h6, h7, List.takeWhile]
  simp [setupSucceeded, setupResults, h1, h2, h3, h4, h5, h6, h7, List.takeWhile]

/-- The run of `serverSetup`: all seven calls, the first report and the state
of the loop when every primitive succeeded; otherwise the calls up to the
first failed one, then `systemFatal` with the message of that call. -/
theorem serverSetup_run (port : Int) (io : SetupIO) :
    if setupSucceeded io = 7 then
      serverSetup port io =
        ⟨setupCalls port io ++ [.displayClientData 0],
          .ok ⟨io.tcpSocket, io.epoll_create1, 0⟩⟩
    else
      serverSetup port io =
        ⟨(setupCalls port io).take (setupSucceeded io + 1) ++
          [.perror (setupMessages.getD (setupSucceeded io) ""), .exit EXIT_FAILURE],
          .exited EXIT_FAILURE⟩ := by
  obtain ⟨r1, r2, r3, r4, r5, r6, r7⟩ := io
  by_cases h1 : r1 = -1
  · simp [serverSetup, initializeServer, bind, Run.bind, call, systemFatal, pure,
      setupSucceeded, setupResults, setupCalls, setupMessages, List.takeWhile, h1]
  by_cases h2 : r2 = -1
  · simp [serverSetup, initializeServer, bind, Run.bind, call, systemFatal, pure,
      setupSucceeded, setupResults, setupCalls, setupMessages, List.takeWhile, h1, h2]
  by_cases h3 : r3 = -1
  · simp [serverSetup, initializeServer, bind, Run.bind, call, systemFatal, pure,
      setupSucceeded, setupResults, setupCalls, setupMessages, List.takeWhile, h1, h2, h3]
  by_cases h4 : r4 = -1
  · simp [serverSetup, initializeServer, bind, Run.bind, call, systemFatal, pure,
      setupSucceeded, setupResults, setupCalls, setupMessages, List.takeWhile, h1, h2, h3,
      h4]
  by_cases h5 : r5 = -1
  · simp [serverSetup, initializeServer, bind, Run.bind, call, systemFatal, pure,
      setupSucceeded, setupResults, setupCalls, setupMessages, List.takeWhile, h1, h2, h3,
      h4, h5]
  by_cases h6 : r6 = -1
  · simp [serverSetup, initializeServer, bind, Run.bind, call, systemFatal, pure,
      setupSucceeded, setupResults, setupCalls, setupMessages, List.takeWhile, h1, h2, h3,
      h4, h5, h6]
  by_cases h7 : r7 = -1
  · simp [serverSetup, initializeServer, bind, Run.bind, call, systemFatal, pure,
      setupSucceeded, setupResults, setupCalls, setupMessages, List.takeWhile, h1, h2, h3,
      h4, h5, h6, h7]
  simp [serverSetup, initializeServer, bind, Run.bind, call, systemFatal, pure,
    setupSucceeded, setupResults, setupCalls, setupMessages, List.takeWhile, h1, h2, h3,
    h4, h5, h6, h7]

/-- C8: `serverSetup` (the part of `server` before `while (1)`) hands the
state of the loop on exactly when none of the seven set-up primitives answers
-1.  In that case the calls are, in this order, `tcpSocket`, `setReuse`,
`bindAddress`, `makeSocketNonBlocking`, `setListen`, `epoll_create1` and
`epoll_ctl` adding the listening socket with `EPOLLIN` (which does not hold
the `EPOLLET` bit), followed by the first report.  Otherwise the calls are
those up to and including the first primitive that answered -1, then `perror`
and `exit (EXIT_FAILURE)` with a non-zero status, and nothing else. -/
theorem serverSetup_reaches_loop_iff (port : Int) (io : SetupIO) :
    ((∃ st, (serverSetup port io).res = .ok st) ↔ ∀ r ∈ setupResults io, r ≠ -1) ∧
    ((∀ r ∈ setupResults io, r ≠ -1) ↔ setupSucceeded io = 7) ∧
    (if setupSucceeded io = 7 then
      serverSetup port io =
        ⟨setupCalls port io ++ [.displayClientData 0],
          .ok ⟨io.tcpSocket, io.epoll_create1, 0⟩⟩
    else
      serverSetup port io =
        ⟨(setupCalls port io).take (setupSucceeded io + 1) ++
          [.perror (setupMessages.getD (setupSucceeded io) ""), .exit EXIT_FAILURE],
          .exited EXIT_FAILURE⟩) ∧
    EXIT_FAILURE ≠ 0 ∧ EPOLLIN &&& EPOLLET = 0 := by
  have hrun := serverSetup_run port io
  refine ⟨?_, setupSucceeded_eq_seven_iff io, hrun, by decide, by decide⟩
  rw [setupSucceeded_eq_seven_iff]
  split at hrun
  · rename_i h7
    rw [hrun]
    simp [h7]
  · rename_i h7
    rw [hrun]
    simp [h7]

/-! ## The accept loop -/

/-- The accept loop when every turn succeeds: the calls made for each client
in turn, then the `acceptConnection` that answers -1; `c + i` is the counter
before the loop. -/
theorem acceptLoop_all_ok (c : Nat) (pending : List AcceptIO) :
    ∀ (st : ServerState) (i : Nat), st.connections = (c + i) % 2 ^ 64 →
    (∀ a ∈ pending, a.acceptConnection ≠ -1 ∧ a.makeSocketNonBlocking ≠ -1 ∧
      a.epoll_ctl ≠ -1) →
    acceptLoop st pending =
      ⟨(pending.enumFrom i).flatMap (fun p =>
          [Call.acceptConnection st.listenSocket p.2.acceptConnection,
            .makeSocketNonBlocking p.2.acceptConnection p.2.makeSocketNonBlocking,
            .epoll_ctl st.epoll EPOLL_CTL_ADD p.2.acceptConnection (EPOLLIN ||| EPOLLET)
              p.2.epoll_ctl,
            .displayClientData ((c + p.1 + 1) % 2 ^ 64)]) ++
          [.acceptConnection st.listenSocket (-1)],
        .ok { st with connections := (c + i + pending.length) % 2 ^ 64 }⟩ := by
  induction pending with
  | nil =>
    intro st i hst _
    obtain ⟨ls, ep, n⟩ := st
    simp only at hst
    simp [acceptLoop, bind, Run.bind, call, pure, hst]
  | cons a rest ih =>
    intro st i hst hok
    obtain ⟨ha, hn, hc⟩ := hok a (by simp)
    have hrest : ∀ b ∈ rest, b.acceptConnection ≠ -1 ∧ b.makeSocketNonBlocking ≠ -1 ∧
        b.epoll_ctl ≠ -1 := fun b hb => hok b (by simp [hb])
    have hst' : ({ st with connections := (st.connections + 1) % 2 ^ 64 } :
        ServerState).connections = (c + (i + 1)) % 2 ^ 64 := by
      simp only [hst]
      omega
    have e := ih { st with connections := (st.connections + 1) % 2 ^ 64 } (i + 1) hst' hrest
    simp only [acceptLoop, bind, Run.bind, call, pure, ha, hn, hc, if_false, e,
      List.enumFrom_cons, List.flatMap_cons]
    simp [hst]
    omega

/-- The dispatch of the listening socket when every turn of the accept loop
succeeds. -/
theorem dispatch_listener_all_ok (N : Nat) (comm : Int) (st : ServerState) (ev : Ready)
    (hfd : ev.fd = st.listenSocket) (hc : st.connections < 2 ^ 64)
    (hok : ∀ a ∈ ev.accepts, a.acceptConnection ≠ -1 ∧ a.makeSocketNonBlocking ≠ -1 ∧
      a.epoll_ctl ≠ -1) :
    dispatch N comm st ev =
      ⟨(ev.accepts.enumFrom 0).flatMap (fun p =>
          [Call.acceptConnection st.listenSocket p.2.acceptConnection,
            .makeSocketNonBlocking p.2.acceptConnection p.2.makeSocketNonBlocking,
            .epoll_ctl st.epoll EPOLL_CTL_ADD p.2.acceptConnection (EPOLLIN ||| EPOLLET)
              p.2.epoll_ctl,
            .displayClientData ((st.connections + p.1 + 1) % 2 ^ 64)]) ++
          [.acceptConnection st.listenSocket (-1)],
        .ok { st with connections := (st.connections + ev.accepts.length) % 2 ^ 64 }⟩ := by
  have e := acceptLoop_all_ok st.connections ev.accepts st 0
    (by simp; omega) hok
  simp only [dispatch, hfd, if_true, e, Nat.add_zero]

/-- C7: when the entry is the listening socket and `k` connections are
pending (`acceptConnection` hands back `k` descriptors, then -1) and the two
calls made for each client do not fail, one dispatch makes `k + 1` calls of
`acceptConnection`, the last one answering -1 without ending the process; for
the client of rank `i` it calls `makeSocketNonBlocking`, then `epoll_ctl`
adding it with `EPOLLIN | EPOLLET`, then reports the count
`connections + i + 1`; the counter ends `k` higher (all modulo `2 ^ 64`). -/
theorem dispatch_listener_drains (N : Nat) (comm : Int) (st : ServerState) (ev : Ready)
    (hfd : ev.fd = st.listenSocket) (hc : st.connections < 2 ^ 64)
    (hok : ∀ a ∈ ev.accepts, a.acceptConnection ≠ -1 ∧ a.makeSocketNonBlocking ≠ -1 ∧
      a.epoll_ctl ≠ -1) :
    dispatch N comm st ev =
      ⟨(ev.accepts.enumFrom 0).flatMap (fun p =>
          [Call.acceptConnection st.listenSocket p.2.acceptConnection,
            .makeSocketNonBlocking p.2.acceptConnection p.2.makeSocketNonBlocking,
            .epoll_ctl st.epoll EPOLL_CTL_ADD p.2.acceptConnection (EPOLLIN ||| EPOLLET)
              p.2.epoll_ctl,
            .displayClientData ((st.connections + p.1 + 1) % 2 ^ 64)]) ++
          [.acceptConnection st.listenSocket (-1)],
        .ok { st with connections := (st.connections + ev.accepts.length) % 2 ^ 64 }⟩ ∧
    EPOLLIN ||| EPOLLET = 2 ^ 31 + 1 :=
  ⟨dispatch_listener_all_ok N comm st ev hfd hc hok, by decide⟩

/-- C7 with two pending connections and the counter at 5. -/
theorem dispatch_listener_drains_witness :
    dispatch 8 0 ⟨3, 4, 5⟩ ⟨3, [⟨7, 0, 0⟩, ⟨9, 0, 0⟩], ⟨0, [], 0⟩⟩ =
      ⟨[.acceptConnection 3 7, .makeSocketNonBlocking 7 0,
          .epoll_ctl 4 EPOLL_CTL_ADD 7 (EPOLLIN ||| EPOLLET) 0, .displayClientData 6,
          .acceptConnection 3 9, .makeSocketNonBlocking 9 0,
          .epoll_ctl 4 EPOLL_CTL_ADD 9 (EPOLLIN ||| EPOLLET) 0, .displayClientData 7,
          .acceptConnection 3 (-1)],
        .ok ⟨3, 4, 7⟩⟩ ∧
    EPOLLIN ||| EPOLLET = 2 ^ 31 + 1 :=
  dispatch_listener_drains 8 0 ⟨3, 4, 5⟩ ⟨3, [⟨7, 0, 0⟩, ⟨9, 0, 0⟩], ⟨0, [], 0⟩⟩
    (by decide) (by decide) (by decide)

/-- C4: for every entry of a client on which `readLine` hands back zero or
less, the handler makes that one call and returns 0 (no `sendData`, no exit);
the dispatch then closes exactly that descriptor, decrements the counter
(modulo `2 ^ 64`, which is one less for a counter between 1 and `2 ^ 64 - 1`)
and reports the new count; and dispatching the listening socket with that one
client pending, followed by this entry, leaves the state of the loop as it was
before the accept. -/
theorem dispatch_read_failure_closes (N : Nat) (comm : Int) (st : ServerState) (ev : Ready)
    (hfd : ev.fd ≠ st.listenSocket) (hread : ev.client.readLine ≤ 0) :
    processConnection N ev.fd comm ev.client =
      ⟨[.readLine ev.fd N ev.client.readLine], .ok 0⟩ ∧
    dispatch N comm st ev =
      ⟨[.readLine ev.fd N ev.client.readLine, .close ev.fd,
          .displayClientData ((st.connections + 2 ^ 64 - 1) % 2 ^ 64)],
        .ok { st with connections := (st.connections + 2 ^ 64 - 1) % 2 ^ 64 }⟩ ∧
    (0 < st.connections → st.connections < 2 ^ 64 →
      (st.connections + 2 ^ 64 - 1) % 2 ^ 64 = st.connections - 1) ∧
    (∀ lev : Ready, lev.fd = st.listenSocket → st.connections < 2 ^ 64 →
      ev.fd ≠ -1 → (∃ nb ctl, nb ≠ -1 ∧ ctl ≠ -1 ∧ lev.accepts = [⟨ev.fd, nb, ctl⟩]) →
      ((dispatch N comm st lev).bind (fun st1 => dispatch N comm st1 ev)).res = .ok st) := by
  have e := processConnection_read_failed N ev.fd comm ev.client hread
  refine ⟨e, ?_, ?_, ?_⟩
  · simpa using dispatch_handler_zero N comm st ev _ hfd e
  · intro h0 h1
    omega
  · intro lev hl hc hne ⟨nb, ctl, hnb, hctl, hacc⟩
    have d1 := (dispatch_listener_all_ok N comm st lev hl hc (by
      intro a ha
      rw [hacc] at ha
      simp at ha
      subst ha
      exact ⟨hne, hnb, hctl⟩))
    have d2 := dispatch_handler_zero N comm
      { st with connections := (st.connections + lev.accepts.length) % 2 ^ 64 } ev _ hfd e
    have hlen : lev.accepts.length = 1 := by rw [hacc]; rfl
    have harith : ((st.connections + 1) % 2 ^ 64 + 2 ^ 64 - 1) % 2 ^ 64 = st.connections := by
      omega
    rw [hlen] at d1 d2
    simp only [Run.bind, d1, d2, harith]

/-- C4 at client 7 with the counter at 1. -/
theorem dispatch_read_failure_closes_witness :
    dispatch 8 0 ⟨3, 4, 1⟩ ⟨7, [], ⟨0, [], 0⟩⟩ =
      ⟨[.readLine 7 8 0, .close 7, .displayClientData ((1 + 2 ^ 64 - 1) % 2 ^ 64)],
        .ok ⟨3, 4, (1 + 2 ^ 64 - 1) % 2 ^ 64⟩⟩ :=
  (dispatch_read_failure_closes 8 0 ⟨3, 4, 1⟩ ⟨7, [], ⟨0, [], 0⟩⟩ (by decide) (by decide)).2.1

/-! ## The connection counter -/

theorem openClients_append (t1 t2 : List Call) :
    openClients (t1 ++ t2) = t2.foldl track (openClients t1) := by
  simp [openClients, List.foldl_append]

/-- An accept loop that does not end the process adds the descriptors it was
handed to the open ones, keeps the listening socket and the epoll object, and
raises the counter by their number when that does not pass `2 ^ 64`. -/
theorem acceptLoop_ok_effect (l : List AcceptIO) :
    ∀ (st st' : ServerState) (t : List Call) (acc : List Int),
    acceptLoop st l = ⟨t, .ok st'⟩ →
    t.foldl track acc = acc ++ accepted l ∧ st'.listenSocket = st.listenSocket ∧
    st'.epoll = st.epoll ∧
    (st.connections + (accepted l).length < 2 ^ 64 →
      st'.connections = st.connections + (accepted l).length) := by
  induction l with
  | nil =>
    intro st st' t acc h
    simp only [acceptLoop, bind, Run.bind, call, pure, Run.mk.injEq, Res.ok.injEq,
      List.append_nil] at h
    obtain ⟨ht, hs⟩ := h
    subst ht hs
    simp [track, accepted]
  | cons a rest ih =>
    intro st st' t acc h
    by_cases ha : a.acceptConnection = -1
    · simp only [acceptLoop, bind, Run.bind, call, pure, ha, if_true, Run.mk.injEq,
        Res.ok.injEq, List.append_nil] at h
      obtain ⟨ht, hs⟩ := h
      subst ht hs
      simp [track, accepted, ha]
    · by_cases hn : a.makeSocketNonBlocking = -1
      · simp [acceptLoop, bind, Run.bind, call, pure, ha, hn, systemFatal] at h
      · by_cases hc : a.epoll_ctl = -1
        · simp [acceptLoop, bind, Run.bind, call, pure, ha, hn, hc, systemFatal] at h
        · simp only [acceptLoop, bind, Run.bind, call, pure, ha, hn, hc, if_false,
            Run.mk.injEq, List.append_nil] at h
          obtain ⟨ht, hs⟩ := h
          have e : acceptLoop { st with connections := (st.connections + 1) % 2 ^ 64 } rest =
              ⟨(acceptLoop { st with connections := (st.connections + 1) % 2 ^ 64 } rest).trace,
                .ok st'⟩ := by
            rw [← hs]
          obtain ⟨h1, h2, h3, h4⟩ := ih _ st' _ (acc ++ [a.acceptConnection]) e
          have hacc : accepted (a :: rest) = a.acceptConnection :: accepted rest := by
            simp [accepted, ha]
          refine ⟨?_, h2, h3, ?_⟩
          · rw [← ht, hacc]
            simp only [List.singleton_append, List.cons_append, List.nil_append,
              List.foldl_cons, track, ha, if_false]
            rw [h1]
            simp
          · intro hlt
            rw [hacc] at hlt ⊢
            simp only [List.length_cons] at hlt ⊢
            rw [h4 (by simp only; omega)]
            simp only
            omega

/-- After a successful set-up the counter is 0 and no client is open. -/
theorem serverSetup_ok_shape (port : Int) (io : SetupIO) (t : List Call) (st : ServerState)
    (h : serverSetup port io = ⟨t, .ok st⟩) : st.connections = 0 ∧ openClients t = [] := by
  have hrun := serverSetup_run port io
  split at hrun
  · rw [hrun] at h
    simp only [Run.mk.injEq, Res.ok.injEq] at h
    obtain ⟨ht, hs⟩ := h
    subst ht hs
    simp [openClients, setupCalls, track]
  · rw [hrun] at h
    simp at h

/-- Distinct non-negative `int`s are at most `2 ^ 31` many. -/
theorem length_le_of_nodup_of_range (l : List Int) (hnd : l.Nodup)
    (hr : ∀ fd ∈ l, 0 ≤ fd ∧ fd ≤ INT_MAX) : l.length ≤ 2 ^ 31 := by
  have hmap : (l.map Int.toNat).Nodup :=
    List.Nodup.map_on (fun x hx y hy hxy => by
      have := hr x hx
      have := hr y hy
      omega) hnd
  have hsub : (l.map Int.toNat).toFinset ⊆ Finset.range (2 ^ 31) := by
    intro x hx
    simp only [List.mem_toFinset, List.mem_map] at hx
    obtain ⟨y, hy, rfl⟩ := hx
    have := hr y hy
    unfold INT_MAX at this
    simp only [Finset.mem_range]
    omega
  have hcard := Finset.card_le_card hsub
  rw [List.toFinset_card_of_nodup hmap, Finset.card_range, List.length_map] at hcard
  exact hcard

/-- In a reachable state the counter is the number of open client descriptors,
which are distinct non-negative `int`s. -/
theorem reachable_invariant (N : Nat) (port comm : Int) (io : SetupIO) (st : ServerState)
    (tr : List Call) (h : Reachable N port comm io st tr) :
    st.connections = (openClients tr).length ∧ (openClients tr).Nodup ∧
    ∀ fd ∈ openClients tr, 0 ≤ fd ∧ fd ≤ INT_MAX := by
  induction h with
  | init h0 =>
    obtain ⟨hc, ho⟩ := serverSetup_ok_shape port io _ _ h0
    rw [ho, hc]
    simp
  | @wait st tr ready _ _ ih =>
    rw [openClients_append]
    simpa only [List.foldl_cons, List.foldl_nil, track] using ih
  | @step st st' tr t ev _ adm hd ih =>
    obtain ⟨hcount, hnd, hrange⟩ := ih
    by_cases hfd : ev.fd = st.listenSocket
    · simp only [Admissible, hfd, if_true] at adm
      obtain ⟨hfresh, hfd'⟩ := adm
      simp only [dispatch, hfd, if_true] at hd
      obtain ⟨h1, _, _, h4⟩ := acceptLoop_ok_effect ev.accepts st st' t (openClients tr) hd
      have hnd' : (openClients tr ++ accepted ev.accepts).Nodup := by
        rw [List.nodup_append]
        refine ⟨hnd, hfresh, ?_⟩
        intro x hx hx'
        exact (hfd' x hx').2.2.1 hx
      have hrange' : ∀ fd ∈ openClients tr ++ accepted ev.accepts, 0 ≤ fd ∧ fd ≤ INT_MAX := by
        intro x hx
        rcases List.mem_append.1 hx with hx | hx
        · exact hrange x hx
        · exact ⟨(hfd' x hx).1, (hfd' x hx).2.1⟩
      have hlen := length_le_of_nodup_of_range _ hnd' hrange'
      rw [List.length_append] at hlen
      rw [openClients_append, h1]
      refine ⟨?_, hnd', hrange'⟩
      rw [List.length_append, h4 (by omega), hcount]
    · simp only [Admissible, hfd, if_false] at adm
      have hpos : 0 < (openClients tr).length := List.length_pos_of_mem adm
      have hlen := length_le_of_nodup_of_range _ hnd hrange
      rcases processConnection_cases N ev.fd comm ev.client with
        ⟨_, e⟩ | ⟨_, _, e⟩ | ⟨_, _, _, _, e⟩ | ⟨_, _, _, _, e⟩
      · rw [dispatch_handler_zero N comm st ev _ hfd e] at hd
        simp only [Run.mk.injEq, Res.ok.injEq] at hd
        obtain ⟨ht, hs⟩ := hd
        subst ht hs
        rw [openClients_append]
        simp only [List.singleton_append, List.foldl_cons, List.foldl_nil, track]
        refine ⟨?_, hnd.erase _, fun x hx => hrange x (List.mem_of_mem_erase hx)⟩
        rw [List.length_erase_of_mem adm]
        omega
      · rw [dispatch_handler_exited N comm st ev _ _ hfd e] at hd
        simp at hd
      · rw [dispatch_handler_nonzero N comm st ev _ 1 hfd (by decide) e] at hd
        simp only [Run.mk.injEq, Res.ok.injEq] at hd
        obtain ⟨ht, hs⟩ := hd
        subst ht hs
        rw [openClients_append]
        simp only [List.foldl_cons, List.foldl_nil, track]
        exact ⟨hcount, hnd, hrange⟩
      · rw [dispatch_handler_exited N comm st ev _ _ hfd e] at hd
        simp at hd

/-- C6: in every reachable state of the loop the counter is the number of
client descriptors accepted and not yet closed; that number stays below
`2 ^ 64`, so the increments never wrap; an entry for a client is only ever
dispatched with the counter above 0, so the decrement never wraps; and when
every accepted client has been closed the counter is 0. -/
theorem connections_counts_open_clients (N : Nat) (port comm : Int) (io : SetupIO)
    (st : ServerState) (tr : List Call) (h : Reachable N port comm io st tr) :
    st.connections = (openClients tr).length ∧
    (openClients tr).length < 2 ^ 64 ∧
    (∀ ev : Ready, Admissible st (openClients tr) ev → ev.fd ≠ st.listenSocket →
      0 < st.connections) ∧
    (openClients tr = [] → st.connections = 0) := by
  obtain ⟨hcount, hnd, hrange⟩ := reachable_invariant N port comm io st tr h
  have hlen := length_le_of_nodup_of_range _ hnd hrange
  refine ⟨hcount, by omega, ?_, ?_⟩
  · intro ev adm hfd
    simp only [Admissible, hfd, if_false] at adm
    rw [hcount]
    exact List.length_pos_of_mem adm
  · intro he
    rw [hcount, he]
    rfl

/-- C6 after two accepts (clients 7 and 9) and the close of client 7. -/
theorem connections_counts_open_clients_witness :
    (⟨3, 4, 1⟩ : ServerState).connections =
      (openClients
        (((([Call.tcpSocket 3, .setReuse 3 0, .bindAddress 80 3 0, .makeSocketNonBlocking 3 0,
            .setListen 3 0, .epoll_create1 0 4, .epoll_ctl 4 EPOLL_CTL_ADD 3 EPOLLIN 0,
            .displayClientData 0] ++
          [.epoll_wait 4 MAX_EVENTS (-1) 1]) ++
          [.acceptConnection 3 7, .makeSocketNonBlocking 7 0,
            .epoll_ctl 4 EPOLL_CTL_ADD 7 (EPOLLIN ||| EPOLLET) 0, .displayClientData 1,
            .acceptConnection 3 9, .makeSocketNonBlocking 9 0,
            .epoll_ctl 4 EPOLL_CTL_ADD 9 (EPOLLIN ||| EPOLLET) 0, .displayClientData 2,
            .acceptConnection 3 (-1)]) ++
          [.epoll_wait 4 MAX_EVENTS (-1) 1]) ++
          [.readLine 7 8 0, .close 7, .displayClientData 1])).length :=
  (connections_counts_open_clients 8 80 0 ⟨3, 0, 0, 0, 0, 4, 0⟩ ⟨3, 4, 1⟩ _
    (@Reachable.step 8 80 0 ⟨3, 0, 0, 0, 0, 4, 0⟩ ⟨3, 4, 2⟩ ⟨3, 4, 1⟩ _ _
      ⟨7, [], ⟨0, [], 0⟩⟩
      (@Reachable.wait 8 80 0 ⟨3, 0, 0, 0, 0, 4, 0⟩ ⟨3, 4, 2⟩ _ 1 (by decide)
        (@Reachable.step 8 80 0 ⟨3, 0, 0, 0, 0, 4, 0⟩ ⟨3, 4, 0⟩ ⟨3, 4, 2⟩ _ _
          ⟨3, [⟨7, 0, 0⟩, ⟨9, 0, 0⟩], ⟨0, [], 0⟩⟩
          (@Reachable.wait 8 80 0 ⟨3, 0, 0, 0, 0, 4, 0⟩ ⟨3, 4, 0⟩ _ 1 (by decide)
            (@Reachable.init 8 80 0 ⟨3, 0, 0, 0, 0, 4, 0⟩ ⟨3, 4, 0⟩ _ (by decide)))
          (by decide) (by decide)))
      (by decide) (by decide))).1

/-! ## Runs of `server` are reachable -/

/-- A sequence that ends with a value is made of two parts that do. -/
theorem Run.bind_eq_ok {α β : Type} (m : Run α) (f : α → Run β) (t : List Call) (b : β)
    (h : m.bind f = ⟨t, .ok b⟩) :
    ∃ t1 a t2, m = ⟨t1, .ok a⟩ ∧ f a = ⟨t2, .ok b⟩ ∧ t = t1 ++ t2 := by
  obtain ⟨t1, r⟩ := m
  cases r with
  | ok a =>
    simp only [Run.bind, Run.mk.injEq] at h
    exact ⟨t1, a, (f a).trace, rfl, by rw [← h.2], h.1.symm⟩
  | exited s =>
    simp [Run.bind] at h

/-- The `for` loop over an admissible batch stays among the reachable states. -/
theorem forEvents_reachable (N : Nat) (port comm : Int) (io : SetupIO) (evs : List Ready) :
    ∀ (st st' : ServerState) (tr t : List Call), Reachable N port comm io st tr →
    AdmissibleBatch N comm st (openClients tr) evs →
    forEvents N comm st evs = ⟨t, .ok st'⟩ → Reachable N port comm io st' (tr ++ t) := by
  induction evs with
  | nil =>
    intro st st' tr t hr _ h
    simp only [forEvents, pure, Run.mk.injEq, Res.ok.injEq] at h
    obtain ⟨ht, hs⟩ := h
    subst ht hs
    simpa using hr
  | cons ev evs ih =>
    intro st st' tr t hr hadm h
    obtain ⟨t1, st1, t2, h1, h2, rfl⟩ := Run.bind_eq_ok _ _ _ _ h
    have hr1 := Reachable.step hr hadm.1 h1
    have hadm1 := hadm.2 t1 st1 h1
    rw [← openClients_append] at hadm1
    have := ih st1 st' (tr ++ t1) t2 hr1 hadm1 h2
    rwa [List.append_assoc] at this

/-- The `while` loop over admissible batches stays among the reachable states. -/
theorem serverLoop_reachable (N : Nat) (port comm : Int) (io : SetupIO)
    (waits : List (Option (List Ready))) :
    ∀ (st st' : ServerState) (tr t : List Call), Reachable N port comm io st tr →
    AdmissibleWaits N comm st (openClients tr) waits →
    serverLoop N comm st waits = ⟨t, .ok st'⟩ → Reachable N port comm io st' (tr ++ t) := by
  induction waits with
  | nil =>
    intro st st' tr t hr _ h
    simp only [serverLoop, pure, Run.mk.injEq, Res.ok.injEq] at h
    obtain ⟨ht, hs⟩ := h
    subst ht hs
    simpa using hr
  | cons w more ih =>
    intro st st' tr t hr hadm h
    cases w with
    | none =>
      simp [serverLoop, bind, Run.bind, call, systemFatal] at h
    | some batch =>
      have hw := Reachable.wait (batch.length : Int) (by omega) hr
      have hb : serverLoop N comm st (some batch :: more) =
          (call (.epoll_wait st.epoll MAX_EVENTS (-1) batch.length)).bind (fun _ =>
            (forEvents N comm st batch).bind (fun st1 => serverLoop N comm st1 more)) := rfl
      rw [hb] at h
      obtain ⟨t0, u, t12, h0, h12, rfl⟩ := Run.bind_eq_ok _ _ _ _ h
      obtain ⟨t1, st1, t2, h1, h2, rfl⟩ := Run.bind_eq_ok _ _ _ _ h12
      simp only [call, Run.mk.injEq] at h0
      obtain ⟨ht0, _⟩ := h0
      subst ht0
      have hopen : openClients (tr ++ [Call.epoll_wait st.epoll MAX_EVENTS (-1) batch.length]) =
          openClients tr := by
        rw [openClients_append]
        rfl
      have hr1 := forEvents_reachable N port comm io batch st st1 _ t1 hw
        (by rw [hopen]; exact hadm.1) h1
      have hadm1 := hadm.2 t1 st1 h1
      rw [← hopen, ← openClients_append] at hadm1
      have := ih st1 st' _ t2 hr1 hadm1 h2
      simpa only [List.append_assoc] using this

/-- Whenever `server`, given finitely many answers of `epoll_wait` that are
admissible when they are handed back, has not ended the process, its state
and the calls it made are reachable, and the counter is the number of client
descriptors accepted and not yet closed. -/
theorem server_connections_counts_open_clients (N : Nat) (port comm : Int) (io : SetupIO)
    (waits : List (Option (List Ready))) (st : ServerState) (tr : List Call)
    (hadm : ∀ t0 st0, serverSetup port io = ⟨t0, .ok st0⟩ → AdmissibleWaits N comm st0 [] waits)
    (h : server N port comm io waits = ⟨tr, .ok st⟩) :
    Reachable N port comm io st tr ∧ st.connections = (openClients tr).length := by
  have hs : server N port comm io waits =
      (serverSetup port io).bind (fun st0 => serverLoop N comm st0 waits) := rfl
  rw [hs] at h
  obtain ⟨t0, st0, t1, h0, h1, rfl⟩ := Run.bind_eq_ok _ _ _ _ h
  have hr0 : Reachable N port comm io st0 t0 := Reachable.init h0
  have hopen := (serverSetup_ok_shape port io t0 st0 h0).2
  have hr := serverLoop_reachable N port comm io waits st0 st t0 t1 hr0
    (by rw [hopen]; exact hadm t0 st0 h0) h1
  exact ⟨hr, (reachable_invariant N port comm io st _ hr).1⟩

/-- The run that accepts clients 7 and 9 and then closes client 7. -/
theorem server_connections_counts_open_clients_witness :
    (⟨3, 4, 1⟩ : ServerState).connections =
      (openClients (server 8 80 0 ⟨3, 0, 0, 0, 0, 4, 0⟩
        [some [⟨3, [⟨7, 0, 0⟩, ⟨9, 0, 0⟩], ⟨0, [], 0⟩⟩],
          some [⟨7, [], ⟨0, [], 0⟩⟩]]).trace).length :=
  (server_connections_counts_open_clients 8 80 0 ⟨3, 0, 0, 0, 0, 4, 0⟩
    [some [⟨3, [⟨7, 0, 0⟩, ⟨9, 0, 0⟩], ⟨0, [], 0⟩⟩], some [⟨7, [], ⟨0, [], 0⟩⟩]]
    ⟨3, 4, 1⟩ _
    (by
      intro t0 st0 h0
      have e0 : serverSetup 80 ⟨3, 0, 0, 0, 0, 4, 0⟩ =
          ⟨[.tcpSocket 3, .setReuse 3 0, .bindAddress 80 3 0, .makeSocketNonBlocking 3 0,
            .setListen 3 0, .epoll_create1 0 4, .epoll_ctl 4 EPOLL_CTL_ADD 3 EPOLLIN 0,
            .displayClientData 0], .ok ⟨3, 4, 0⟩⟩ := by decide
      rw [e0] at h0
      simp only [Run.mk.injEq, Res.ok.injEq] at h0
      obtain ⟨_, rfl⟩ := h0
      refine ⟨⟨by decide, ?_⟩, ?_⟩
      · intro t st' _
        trivial
      · intro t st' h1
        have e1 : forEvents 8 0 ⟨3, 4, 0⟩ [⟨3, [⟨7, 0, 0⟩, ⟨9, 0, 0⟩], ⟨0, [], 0⟩⟩] =
            ⟨[.acceptConnection 3 7, .makeSocketNonBlocking 7 0,
              .epoll_ctl 4 EPOLL_CTL_ADD 7 (EPOLLIN ||| EPOLLET) 0, .displayClientData 1,
              .acceptConnection 3 9, .makeSocketNonBlocking 9 0,
              .epoll_ctl 4 EPOLL_CTL_ADD 9 (EPOLLIN ||| EPOLLET) 0, .displayClientData 2,
              .acceptConnection 3 (-1)], .ok ⟨3, 4, 2⟩⟩ := by decide
        rw [e1] at h1
        simp only [Run.mk.injEq, Res.ok.injEq] at h1
        obtain ⟨rfl, rfl⟩ := h1
        refine ⟨⟨by decide, ?_⟩, ?_⟩
        · intro t st' _
          trivial
        · intro t st' _
          trivial)
    (by decide)).2

/-! ## Reading once per dispatch -/

/-- C9, the code at a failing input: client 7 has two requests available at
once, "1" and "1", each ended by a newline.  `readLine` takes the first line
and leaves the second unread; the dispatch calls `readLine` once, sends one
byte, makes no `close` call and leaves the state of the loop unchanged, so
control is back in the loop with the connection registered and input that was
available still unread. -/
theorem dispatch_leaves_pipelined_request_unread :
    readLine "1\n1\n".toList 8 = (2, "1\n".toList, "1\n".toList) ∧
    dispatch 8 0 ⟨3, 4, 1⟩ ⟨7, [], ⟨2, "1\n".toList, 1⟩⟩ =
      ⟨[.readLine 7 8 2, .sendData 7 (List.replicate 8 'L') 1 1], .ok ⟨3, 4, 1⟩⟩ := by
  decide

end EpollServer
